import Mathlib

/-!
Shallow embedding of the twisted-telegram-bot update-dispatch engine
(src/ttbot/__init__.py and src/ttbot/types.py).

Python strings are modelled as lists of characters (`Str`).  Handler
callbacks are modelled by abstract identifiers (`HandlerFn`), since dispatch
only ever selects and returns them.  The `cachetools.LRUCache` instances are
modelled as association lists with at most one entry per key; recency
tracking and capacity eviction are not modelled because no claim below
depends on them.
-/

/-- Python strings, modelled as lists of characters. -/
abbrev Str := List Char

/-- Whitespace as recognised by Python's `str.split()` (ASCII subset:
space, tab, newline, carriage return, vertical tab, form feed). -/
def isPySpace (c : Char) : Bool :=
  c = ' ' || c = '\t' || c = '\n' || c = '\r' || c = '\x0b' || c = '\x0c'

/-- Helper for `pysplit`: walks the string, accumulating the current word
(reversed) in `acc`; a whitespace character or the end of input flushes the
accumulated word. -/
def pysplitAux : Str → Str → List Str
  | [], acc => if acc = [] then [] else [acc.reverse]
  | c :: cs, acc =>
    if isPySpace c then
      (if acc = [] then pysplitAux cs [] else acc.reverse :: pysplitAux cs [])
    else pysplitAux cs (c :: acc)

/-- Python `str.split()` with no argument: split on runs of whitespace,
discarding empty fields (hence leading/trailing whitespace). -/
def pysplit (s : Str) : List Str := pysplitAux s []

/-- Python `sep.join(words)` with `sep = " "`: words joined by single
spaces. -/
def joinWords : List Str → Str
  | [] => []
  | [w] => w
  | w :: ws => w ++ ' ' :: joinWords ws

/-- The text normalisation performed by `Message.de_json`
(src/ttbot/types.py line 78): `" ".join(obj['text'].split())`. -/
def pyNormalize (s : Str) : Str := joinWords (pysplit s)

/-- Model of Python `re.match(pattern, s)` for the pattern subset the
repository uses in command matching: literal characters, the wildcard `.`,
and a terminal `$` anchor.  `re.match` anchors at the start of the string
and succeeds on a prefix match; a terminal `$` additionally requires the
end of the string.  (A `$` that is not the final pattern character is
treated as a literal; the source never produces such a pattern, since it
only appends `$` at the end.) -/
def reMatchList : Str → Str → Bool
  | [], _ => true
  | ['$'], s => s.isEmpty
  | '.' :: ps, _ :: ss => reMatchList ps ss
  | '.' :: _, [] => false
  | p :: ps, c :: ss => p = c && reMatchList ps ss
  | _ :: _, [] => false

/-- Model of Python `re.search(pattern, s)` for the same pattern subset:
try an anchored match at every start position. -/
def reSearchList (p : Str) : Str → Bool
  | [] => reMatchList p []
  | c :: cs => reMatchList p (c :: cs) || reSearchList p cs

/-- `is_command` (src/ttbot/__init__.py line 26): the text starts with the
command marker `/`. -/
def is_command (text : Str) : Bool :=
  match text with
  | [] => false
  | c :: _ => c = '/'

/-- Python `str.lower()` (ASCII-adequate model). -/
def lowerStr (s : Str) : Str := s.map Char.toLower

/-- `extract_command` (src/ttbot/__init__.py line 30):
`text.split()[0].split('@')[0][1:].lower() if is_command(text) else None`.
When the guard holds the text starts with the non-whitespace character `/`,
so `split()` is nonempty and the `[0]` indexing cannot fail. -/
def extract_command (text : Str) : Option Str :=
  if is_command text then
    some (lowerStr ((((pysplit text).headD []).takeWhile (fun c => c ≠ '@')).drop 1))
  else none

/-- The closed enumeration of content types assigned by `Message.de_json`
(src/ttbot/types.py lines 77-121). -/
inductive ContentKind where
  | text
  | audio
  | voice
  | document
  | photo
  | sticker
  | video
  | location
  | contact
  | new_chat_participant
  | left_chat_participant
  | new_chat_title
  | new_chat_photo
  | delete_chat_photo
  | group_chat_created
deriving DecidableEq, Repr

/-- A raw message payload as consumed by `Message.de_json`: which content
keys are present (for kinds other than text only presence matters to the
dispatch engine), the chat id (`parse_chat` returns an object whose `id`
field is `obj['chat']['id']` in both the private-chat and group-chat
branches), and the `message_id` of a nested `reply_to_message` payload if
present (the only field of the nested message the dispatch engine
consults). -/
structure RawMessage where
  message_id : Int
  chat_id : Int
  reply_to_message : Option Int := none
  text : Option Str := none
  audio : Bool := false
  voice : Bool := false
  document : Bool := false
  photo : Bool := false
  sticker : Bool := false
  video : Bool := false
  location : Bool := false
  contact : Bool := false
  new_chat_participant : Bool := false
  left_chat_participant : Bool := false
  new_chat_title : Bool := false
  new_chat_photo : Bool := false
  delete_chat_photo : Bool := false
  group_chat_created : Bool := false

/-- Whether the raw payload carries the marker for a given content kind. -/
def RawMessage.hasKind (obj : RawMessage) : ContentKind → Bool
  | .text => obj.text.isSome
  | .audio => obj.audio
  | .voice => obj.voice
  | .document => obj.document
  | .photo => obj.photo
  | .sticker => obj.sticker
  | .video => obj.video
  | .location => obj.location
  | .contact => obj.contact
  | .new_chat_participant => obj.new_chat_participant
  | .left_chat_participant => obj.left_chat_participant
  | .new_chat_title => obj.new_chat_title
  | .new_chat_photo => obj.new_chat_photo
  | .delete_chat_photo => obj.delete_chat_photo
  | .group_chat_created => obj.group_chat_created

/-- The typed message produced by `Message.de_json`, restricted to the
fields the dispatch engine reads: identity, chat identity, content-type
tag, normalised text, and the reply target (the nested message's id). -/
structure Message where
  message_id : Int
  chat_id : Int
  content_type : Option ContentKind := none
  text : Option Str := none
  reply_to_message : Option Int := none
deriving DecidableEq

/-- `Message.de_json` (src/ttbot/types.py lines 60-124), restricted to the
fields the dispatch engine reads.  Each `if 'key' in obj` block overwrites
`content_type`, so the final tag is decided by the last matching block; the
text, when present, is stored as `" ".join(obj['text'].split())`. -/
def Message.de_json (obj : RawMessage) : Message :=
  let content_type : Option ContentKind := none
  let content_type := if obj.text.isSome then some .text else content_type
  let content_type := if obj.audio then some .audio else content_type
  let content_type := if obj.voice then some .voice else content_type
  let content_type := if obj.document then some .document else content_type
  let content_type := if obj.photo then some .photo else content_type
  let content_type := if obj.sticker then some .sticker else content_type
  let content_type := if obj.video then some .video else content_type
  let content_type := if obj.location then some .location else content_type
  let content_type := if obj.contact then some .contact else content_type
  let content_type := if obj.new_chat_participant then some .new_chat_participant else content_type
  let content_type := if obj.left_chat_participant then some .left_chat_participant else content_type
  let content_type := if obj.new_chat_title then some .new_chat_title else content_type
  let content_type := if obj.new_chat_photo then some .new_chat_photo else content_type
  let content_type := if obj.delete_chat_photo then some .delete_chat_photo else content_type
  let content_type := if obj.group_chat_created then some .group_chat_created else content_type
  { message_id := obj.message_id
    chat_id := obj.chat_id
    content_type := content_type
    text := obj.text.map pyNormalize
    reply_to_message := obj.reply_to_message }

/-- The fixed priority order of content kinds, in the order their blocks
appear in `Message.de_json`. -/
def contentPriority : List ContentKind :=
  [.text, .audio, .voice, .document, .photo, .sticker, .video, .location, .contact,
   .new_chat_participant, .left_chat_participant, .new_chat_title, .new_chat_photo,
   .delete_chat_photo, .group_chat_created]

/-- Handler callbacks, identified abstractly: dispatch only ever selects
and returns them, so their behaviour is irrelevant to the claims. -/
abbrev HandlerFn := Nat

/-- The `func_dict` built by `register_message_handler`
(src/ttbot/__init__.py lines 264-274): the handler function, the required
content types, and the optional `commands`, `regexp` and `lambda` keys
(`none` models key absence).  When `commands` (resp. `regexp`) is supplied
but `'text'` is not among the content types, the source stores the key with
value `None`; that value is unreachable in `_test_message_handler` because
a text message then already fails the content-type check, so the model
drops the key instead. -/
structure MessageHandler where
  function : HandlerFn
  content_types : List ContentKind
  commands : Option (List Str) := none
  regexp : Option Str := none
  lam : Option (Message → Bool) := none

/-- `register_message_handler` (src/ttbot/__init__.py lines 264-274):
append a `func_dict` to the ordered handler list.  `content_types` defaults
to `['text']` when absent or empty (Python falsiness). -/
def register_message_handler (handlers : List MessageHandler) (fn : HandlerFn)
    (commands : Option (List Str)) (regexp : Option Str)
    (func : Option (Message → Bool)) (content_types0 : Option (List ContentKind)) :
    List MessageHandler :=
  let content_types :=
    match content_types0 with
    | none => [ContentKind.text]
    | some l => if l = [] then [ContentKind.text] else l
  handlers ++
    [{ function := fn
       content_types := content_types
       commands :=
         match commands with
         | none => none
         | some cs =>
           if cs = [] then none
           else if ContentKind.text ∈ content_types then some cs else none
       regexp :=
         match regexp with
         | none => none
         | some r => if r = [] then none else if ContentKind.text ∈ content_types then some r else none
       lam := func }]

/-- The `for command_pattern in message_handler['commands']` loop body
(src/ttbot/__init__.py lines 290-293): append `$` unless the pattern
already ends with it, then `re.match` against the extracted command. -/
def appendDollar (p : Str) : Str :=
  if p.getLast? = some '$' then p else p ++ ['$']

/-- The membership test `message.content_type not in
message_handler['content_types']`, negated.  A message with no content
marker has `content_type = None`, which is never a member. -/
def contentTypeOk (mh : MessageHandler) (m : Message) : Bool :=
  match m.content_type with
  | none => false
  | some ct => ct ∈ mh.content_types

/-- The tail of `_test_message_handler` after the commands block
(src/ttbot/__init__.py lines 296-302): the regexp test (text messages
only), then the `lambda` predicate, else `False`. -/
def testRegexpAndLambda (mh : MessageHandler) (m : Message) : Bool :=
  if (match mh.regexp with
      | some r => m.content_type = some ContentKind.text && reSearchList r (m.text.getD [])
      | none => false) then
    true
  else
    match mh.lam with
    | some f => f m
    | none => false

/-- `_test_message_handler` (src/ttbot/__init__.py lines 283-302).  Content
type must be allowed; when the handler declares commands and the message is
text, a truthy extracted command token is matched against each declared
pattern (with `$` appended), returning `True` on the first match and
`False` after the loop; when the extracted token is `None` or empty
(falsy), control falls through to the regexp/lambda tests.  The guarded
`message.text` access is modelled by `Option.getD`: a text content type
implies the text key was present. -/
def _test_message_handler (mh : MessageHandler) (m : Message) : Bool :=
  if contentTypeOk mh m = false then false
  else
    match mh.commands, m.content_type with
    | some cmds, some ContentKind.text =>
      (match extract_command (m.text.getD []) with
       | some (c :: cs) => cmds.any (fun p => reMatchList (appendDollar p) (c :: cs))
       | some [] => testRegexpAndLambda mh m
       | none => testRegexpAndLambda mh m)
    | _, _ => testRegexpAndLambda mh m

/-- Association-list lookup, modelling Python `dict` access with `get`. -/
def assocGet (l : List (Int × HandlerFn)) (k : Int) : Option HandlerFn :=
  (l.find? (fun e => e.1 == k)).map (fun e => e.2)

/-- Removal of a key, modelling `dict.pop(k, None)`'s mutation.  A Python
dict holds at most one entry per key; removing every pair with the key
coincides with dict behaviour on all states reachable by dict
operations. -/
def assocErase (l : List (Int × HandlerFn)) (k : Int) : List (Int × HandlerFn) :=
  l.filter (fun e => !(e.1 == k))

/-- Key assignment, modelling `d[k] = v` (including the recency update of
`cachetools.LRUCache.__setitem__`; only key uniqueness matters here). -/
def assocSet (l : List (Int × HandlerFn)) (k : Int) (v : HandlerFn) :
    List (Int × HandlerFn) :=
  (k, v) :: assocErase l k

/-- The dispatch-relevant mutable state of a `TelegramBot` instance
(src/ttbot/__init__.py lines 92-96): the reply-subscription cache, the
next-step handler cache, and the ordered static handler list. -/
structure BotState where
  message_subscribers : List (Int × HandlerFn)
  message_next_handlers : List (Int × HandlerFn)
  message_handlers : List MessageHandler

/-- `_find_message_subscriber_handler_function` (src/ttbot/__init__.py
lines 256-259): `None` when the message has no `reply_to_message`
attribute, otherwise `pop` the subscription keyed by the replied-to
message's id (removing it). -/
def _find_message_subscriber_handler_function (st : BotState) (m : Message) :
    Option HandlerFn × BotState :=
  match m.reply_to_message with
  | none => (none, st)
  | some rid =>
    (assocGet st.message_subscribers rid,
     { st with message_subscribers := assocErase st.message_subscribers rid })

/-- `_find_message_next_handler` (src/ttbot/__init__.py lines 261-262):
`pop` the next-step handler keyed by the chat id. -/
def _find_message_next_handler (st : BotState) (m : Message) :
    Option HandlerFn × BotState :=
  (assocGet st.message_next_handlers m.chat_id,
   { st with message_next_handlers := assocErase st.message_next_handlers m.chat_id })

/-- `_find_command_handler_function` (src/ttbot/__init__.py lines 250-254):
scan the static handlers in registration order, returning the first whose
test passes. -/
def _find_command_handler_function (st : BotState) (m : Message) : Option HandlerFn :=
  (st.message_handlers.find? (fun mh => _test_message_handler mh m)).map
    (fun mh => mh.function)

/-- `process_message` (src/ttbot/__init__.py lines 203-217), with the
prehandler notification (pure side effect) omitted: try the reply
subscription, then the next-step handler, then the static handlers,
returning the first handler found (`none` when the message matches nothing)
together with the updated caches. -/
def process_message (st : BotState) (m : Message) : Option HandlerFn × BotState :=
  let sub := _find_message_subscriber_handler_function st m
  match sub.1 with
  | some f => (some f, sub.2)
  | none =>
    let nxt := _find_message_next_handler sub.2 m
    match nxt.1 with
    | some f => (some f, nxt.2)
    | none => (_find_command_handler_function nxt.2 m, nxt.2)

/-- `register_for_reply` (src/ttbot/__init__.py lines 467-468). -/
def register_for_reply (st : BotState) (message_id : Int) (callback : HandlerFn) :
    BotState :=
  { st with message_subscribers := assocSet st.message_subscribers message_id callback }

/-- `register_next_chat_handler` (src/ttbot/__init__.py lines 470-471). -/
def register_next_chat_handler (st : BotState) (chat_id : Int) (callback : HandlerFn) :
    BotState :=
  { st with message_next_handlers := assocSet st.message_next_handlers chat_id callback }

/-- A raw update as seen by the cursor computation of `get_update`: only
its `update_id` matters there. -/
structure Update where
  update_id : Int

/-- The `max_update_id` computation of `get_update` (src/ttbot/__init__.py
lines 145, 173-174): start from `-1` and take every `update_id` that
exceeds the current maximum. -/
def max_update_id (updates : List Update) : Int :=
  updates.foldl (fun acc u => if u.update_id > acc then u.update_id else acc) (-1)

/-- The cursor state owned by the poll loop. -/
structure PollCursor where
  last_update_id : Int

/-- The `offset` sent in the `getUpdates` payload (src/ttbot/__init__.py
line 137). -/
def get_update_offset (st : PollCursor) : Int := st.last_update_id + 1

/-- The cursor effect of one `get_update` step (src/ttbot/__init__.py lines
136-178) on the batch the transport returned: after processing, the cursor
is assigned `max_update_id`, which was initialised to `-1` independently of
the previous cursor value. -/
def get_update_step (st : PollCursor) (updates : List Update) : PollCursor :=
  { last_update_id := max_update_id updates }

/-- One iteration of the `update_bot` closure inside `start_update`
(src/ttbot/__init__.py lines 116-128), parametrised by whether
`get_update` succeeded.  Returns the delay value the failure log reports
(the pre-increment `retry_update`, `none` on success), the delay passed to
`reactor.callLater` for the next iteration, and the new `retry_update`. -/
def update_bot_step (default_delay : Nat) (retry_update : Nat) (success : Bool) :
    Option Nat × Nat × Nat :=
  if success then (none, default_delay, default_delay)
  else (some retry_update, min (retry_update + 3) 20, min (retry_update + 3) 20)

/-- The delays `reactor.callLater` is given over `n` consecutive failing
iterations starting from retry value `r` (with `default_delay` irrelevant
on the failure path). -/
def failureDelays (r : Nat) : Nat → List Nat
  | 0 => []
  | n + 1 =>
    let step := update_bot_step 0 r false
    step.2.1 :: failureDelays step.2.2 n

/-- The delay values the failure log reports over `n` consecutive failing
iterations starting from retry value `r`. -/
def failureLogged (r : Nat) : Nat → List Nat
  | 0 => []
  | n + 1 =>
    let step := update_bot_step 0 r false
    (step.1.getD 0) :: failureLogged step.2.2 n

/-- The stable insertion step of `pySorted`, comparing chat ids; among
equal keys the inserted (earlier-arriving) message goes first, which is
exactly the stability Python's sort guarantees. -/
def sortInsert (m : Message) : List Message → List Message
  | [] => [m]
  | x :: xs => if m.chat_id ≤ x.chat_id then m :: x :: xs else x :: sortInsert m xs

/-- `sorted(messages, key=lambda m: m.chat.id)` (src/ttbot/__init__.py line
228): Python's sort is stable, and every stable sort by the same key
produces the same list, so stable insertion sort is a faithful model. -/
def pySorted : List Message → List Message
  | [] => []
  | m :: ms => sortInsert m (pySorted ms)

/-- `itertools.groupby(..., key=lambda m: m.chat.id)`: split a list into
maximal runs of consecutive equal chat ids, each tagged with its key. -/
def pyGroupby : List Message → List (Int × List Message)
  | [] => []
  | m :: ms =>
    match pyGroupby ms with
    | [] => [(m.chat_id, [m])]
    | (k, g) :: rest =>
      if m.chat_id = k then (k, m :: g) :: rest else (m.chat_id, [m]) :: (k, g) :: rest

/-- The per-chat groups built by `process_messages` (src/ttbot/__init__.py
lines 224-232): group the chat-id-sorted batch by chat id; each group is
then processed sequentially by `process_messages_in_order`. -/
def process_messages_groups (messages : List Message) : List (Int × List Message) :=
  pyGroupby (pySorted messages)

/-- The sequence of messages `process_messages` routes to chat `c`: the
concatenation of the groups keyed `c` (for a sorted batch there is at most
one such group). -/
def chatPartition (c : Int) (messages : List Message) : List Message :=
  (((process_messages_groups messages).filter (fun g => g.1 == c)).map
    (fun g => g.2)).flatten

/-- The router resolution order as the specification words it: the reply
subscription looked up under the reply target, otherwise the next-step
handler looked up under the chat id, otherwise the first matching static
handler in registration order. -/
def routerSpecResolve (st : BotState) (m : Message) : Option HandlerFn :=
  match m.reply_to_message.bind (assocGet st.message_subscribers) with
  | some f => some f
  | none =>
    match assocGet st.message_next_handlers m.chat_id with
    | some f => some f
    | none => _find_command_handler_function st m

/-- The last kind of `contentPriority` whose marker the payload carries:
the specification's "last matching kind in a fixed priority order". -/
def lastMatchingKind (obj : RawMessage) : Option ContentKind :=
  (contentPriority.filter obj.hasKind).getLast?

/-- The static handler list containing exactly one handler registered with
commands `["start"]` and default content types (`['text']`). -/
def startHandlers : List MessageHandler :=
  register_message_handler [] 7 (some ["start".data]) none none none

/-- A bot state whose only dispatch state is the `startHandlers` list. -/
def startBot : BotState :=
  { message_subscribers := []
    message_next_handlers := []
    message_handlers := startHandlers }

/-- A conversational text message with the given text, as produced by
`Message.de_json`. -/
def mkTextMessage (s : String) : Message :=
  Message.de_json { message_id := 1, chat_id := 1, text := some s.data }

/-- A reply to message id `10`, used to exercise reply subscriptions. -/
def replyMessage (mid : Int) : Message :=
  Message.de_json
    { message_id := mid, chat_id := 1, text := some "/start".data, reply_to_message := some 10 }

/-- A bot state with a single handler that declares both commands
`["start"]` and the regexp `"hello"` (content type text). -/
def cmdRegexpBot : BotState :=
  { message_subscribers := []
    message_next_handlers := []
    message_handlers :=
      register_message_handler [] 8 (some ["start".data]) (some "hello".data) none none }

/-- A bot state with a single handler whose declared command is the
regex-metacharacter string `"st.rt"`. -/
def dotPatternBot : BotState :=
  { message_subscribers := []
    message_next_handlers := []
    message_handlers :=
      register_message_handler [] 9 (some ["st.rt".data]) none none none }

/-- A minimal conversational message with the given identity and chat. -/
def exMsg (mid chat : Int) : Message :=
  { message_id := mid, chat_id := chat }

/-- The spec's example batch: ten conversational messages whose chat
identities are `[1, 2, 2, 3, 1, 2, 3, 1, 1, 3]` in arrival order. -/
def exampleBatch : List Message :=
  [exMsg 0 1, exMsg 1 2, exMsg 2 2, exMsg 3 3, exMsg 4 1,
   exMsg 5 2, exMsg 6 3, exMsg 7 1, exMsg 8 1, exMsg 9 3]

/-- No two adjacent characters are both whitespace: every whitespace run
has length at most one. -/
def noConsecWS : Str → Bool
  | a :: b :: r => !(isPySpace a && isPySpace b) && noConsecWS (b :: r)
  | _ => true

/-- The first character, if any, is not whitespace. -/
def headNotWS : Str → Bool
  | [] => true
  | c :: _ => !isPySpace c

/-- The last character, if any, is not whitespace. -/
def lastNotWS : Str → Bool
  | [] => true
  | [c] => !isPySpace c
  | _ :: c :: r => lastNotWS (c :: r)

example : pysplit ('/' :: 's' :: 't' :: ' ' :: ' ' :: 'a' :: []) = [['/', 's', 't'], ['a']] := by
  decide

example : extract_command "/start@mybot extra".data = some "start".data := by decide

example : extract_command "start".data = none := by decide

example : reMatchList "start$".data "start".data = true := by decide

example : reMatchList "start$".data "started".data = false := by decide

/-! Helper lemmas. -/

theorem foldlMax_ge_init (l : List Update) : ∀ acc : Int,
    acc ≤ l.foldl (fun a u => if u.update_id > a then u.update_id else a) acc := by
  induction l with
  | nil => intro acc; exact le_refl acc
  | cons x xs ih =>
    intro acc
    rw [List.foldl_cons]
    refine le_trans ?_ (ih _)
    by_cases hx : x.update_id > acc
    · rw [if_pos hx]; omega
    · rw [if_neg hx]

theorem max_update_id_ge_mem (updates : List Update) :
    ∀ u ∈ updates, u.update_id ≤ max_update_id updates := by
  have aux : ∀ (l : List Update) (acc : Int) (u : Update), u ∈ l →
      u.update_id ≤ l.foldl (fun a u => if u.update_id > a then u.update_id else a) acc := by
    intro l
    induction l with
    | nil => intro acc u hu; cases hu
    | cons x xs ih =>
      intro acc u hu
      rw [List.foldl_cons]
      rcases List.mem_cons.mp hu with h | h
      · subst h
        refine le_trans ?_ (foldlMax_ge_init xs _)
        by_cases hx : u.update_id > acc
        · rw [if_pos hx]
        · rw [if_neg hx]; omega
      · exact ih _ u h
  exact fun u hu => aux updates (-1) u hu

theorem failureDelays_formula (n : Nat) : ∀ (r i : Nat), r ≤ 20 → i < n →
    (failureDelays r n)[i]? = some (min (r + 3 * (i + 1)) 20) := by
  induction n with
  | zero => intro r i _ h; omega
  | succ n ih =>
    intro r i hr hi
    cases i with
    | zero => simp [failureDelays, update_bot_step]
    | succ i =>
      have hstep : min (r + 3) 20 ≤ 20 := by omega
      have := ih (min (r + 3) 20) i hstep (by omega)
      simp only [failureDelays, update_bot_step, if_neg Bool.false_ne_true]
      simp only [List.getElem?_cons_succ]
      rw [this]
      congr 1
      omega

/-! Claim theorems. -/

/-- C1 (counterexample): the claim asserts the cursor is non-decreasing
across every `get_update` step including the empty batch; but a step on the
empty batch from cursor `5` resets the cursor to `-1`, a strict decrease. -/
theorem C1_counterexample :
    ¬ (({ last_update_id := 5 } : PollCursor).last_update_id ≤
        (get_update_step { last_update_id := 5 } []).last_update_id) := by
  decide

/-- C1 (amended): for every `get_update` step on a nonempty batch all of
whose update ids exceed the cursor's prior value (which is what the
transport returns, being asked only for updates from offset
`last_update_id + 1`), the cursor after the step is at least its value
before the step; an empty batch instead resets the cursor to `-1`. -/
theorem C1_cursor_monotone_amended (st : PollCursor) (updates : List Update)
    (hne : updates ≠ [])
    (hgt : ∀ u ∈ updates, st.last_update_id < u.update_id) :
    st.last_update_id ≤ (get_update_step st updates).last_update_id := by
  rcases updates with _ | ⟨u, rest⟩
  · exact absurd rfl hne
  · have h1 : u.update_id ≤ max_update_id (u :: rest) :=
      max_update_id_ge_mem (u :: rest) u (List.mem_cons_self u rest)
    have h2 : st.last_update_id < u.update_id := hgt u (List.mem_cons_self u rest)
    simpa [get_update_step] using le_trans (le_of_lt h2) h1

/-- C1 (witness): the amended statement at cursor `5` and the singleton
batch with update id `6`. -/
theorem C1_witness :
    ([({ update_id := 6 } : Update)] ≠ []) ∧
    (∀ u ∈ [({ update_id := 6 } : Update)], (5 : Int) < u.update_id) ∧
    (({ last_update_id := 5 } : PollCursor).last_update_id ≤
      (get_update_step { last_update_id := 5 } [{ update_id := 6 }]).last_update_id) :=
  ⟨by simp, by decide,
   C1_cursor_monotone_amended { last_update_id := 5 } [{ update_id := 6 }]
     (by simp) (by decide)⟩

/-- C3 (counterexample): the claim asserts the delays observed before
successive retry attempts on consecutive failures from retry value `0` are
`0, 3, 6, 9, 12, 15, 18, 20, 20, 20`; but `update_bot` increments
`retry_update` before passing it to `reactor.callLater`, so the first ten
scheduled delays are `3, 6, 9, 12, 15, 18, 20, 20, 20, 20`. -/
theorem C3_counterexample :
    failureDelays 0 10 ≠ [0, 3, 6, 9, 12, 15, 18, 20, 20, 20] := by
  decide

/-- C3 (amended): on consecutive transport failures starting from retry
value `0`, the scheduled retry delays are `3, 6, 9, 12, 15, 18, 20, 20,
20, 20, …` (in general, the delay before the `(i+1)`-th retry is
`min (3 * (i + 1)) 20`); the sequence `0, 3, 6, 9, 12, 15, 18, 20, 20, 20`
claimed by the spec is what the failure log reports (the pre-increment
value); and a subsequent successful poll resets the delay to the
configured default of `0`. -/
theorem C3_backoff_amended :
    failureDelays 0 10 = [3, 6, 9, 12, 15, 18, 20, 20, 20, 20] ∧
    (∀ n i, i < n → (failureDelays 0 n)[i]? = some (min (3 * (i + 1)) 20)) ∧
    failureLogged 0 10 = [0, 3, 6, 9, 12, 15, 18, 20, 20, 20] ∧
    (∀ r, update_bot_step 0 r true = (none, 0, 0)) := by
  refine ⟨by decide, ?_, by decide, fun r => rfl⟩
  intro n i hi
  simpa using failureDelays_formula n 0 i (by omega) hi

/-- C3 (witness): the general delay formula at the eighth failure. -/
theorem C3_witness :
    (7 < 8) ∧ (failureDelays 0 8)[7]? = some (min (3 * (7 + 1)) 20) :=
  ⟨by omega, C3_backoff_amended.2.1 8 7 (by omega)⟩

/-- C4 (confirmed): a handler registered with commands `["start"]` matches
the text messages `"/start"` and `"/start@mybot extra"`, and matches
neither `"start"` (no leading marker) nor `"/started"` (prefix, not a full
match). -/
theorem C4_command_matching :
    _find_command_handler_function startBot (mkTextMessage "/start") = some 7 ∧
    _find_command_handler_function startBot (mkTextMessage "/start@mybot extra") = some 7 ∧
    _find_command_handler_function startBot (mkTextMessage "start") = none ∧
    _find_command_handler_function startBot (mkTextMessage "/started") = none := by
  refine ⟨?_, ?_, ?_, ?_⟩ <;> rfl

theorem foldl_override_eq_getLast (p : ContentKind → Bool) (l : List ContentKind) :
    ∀ acc : Option ContentKind,
      l.foldl (fun a k => if p k then some k else a) acc =
        ((l.filter p).getLast?).elim acc some := by
  induction l using List.reverseRecOn with
  | nil => intro acc; rfl
  | append_singleton xs k ih =>
    intro acc
    rw [List.foldl_append, List.filter_append]
    by_cases hp : p k
    · simp [hp, List.getLast?_concat]
    · simp [hp, ih acc]

/-- C7 (confirmed): the content type `Message.de_json` assigns is the last
kind in the fixed priority order (text, audio, voice, document, photo,
sticker, video, location, contact, then the membership/title/photo-change
variants) whose marker the raw payload carries: later entries override
earlier ones when both are present. -/
theorem C7_content_type_priority (obj : RawMessage) :
    (Message.de_json obj).content_type = lastMatchingKind obj := by
  have h : (Message.de_json obj).content_type
      = contentPriority.foldl (fun a k => if obj.hasKind k then some k else a) none := rfl
  rw [h, foldl_override_eq_getLast obj.hasKind contentPriority none, lastMatchingKind]
  cases (contentPriority.filter obj.hasKind).getLast? <;> rfl

/-- C6 (confirmed): `process_message` resolves exactly in the
specification's strict order — reply subscription under the reply target,
otherwise next-step handler under the chat id, otherwise the first matching
static handler in registration order — and returns at most one handler
(`none`, i.e. a silent drop, when nothing matches). -/
theorem C6_resolution_order (st : BotState) (m : Message) :
    (process_message st m).1 = routerSpecResolve st m := by
  cases hrt : m.reply_to_message with
  | none =>
    cases hn : assocGet st.message_next_handlers m.chat_id <;>
      simp [process_message, routerSpecResolve, _find_message_subscriber_handler_function,
        _find_message_next_handler, _find_command_handler_function, hrt, hn]
  | some rid =>
    cases hs : assocGet st.message_subscribers rid with
    | some f =>
      simp [process_message, routerSpecResolve, _find_message_subscriber_handler_function,
        _find_message_next_handler, hrt, hs]
    | none =>
      cases hn : assocGet st.message_next_handlers m.chat_id <;>
        simp [process_message, routerSpecResolve, _find_message_subscriber_handler_function,
          _find_message_next_handler, _find_command_handler_function, hrt, hs, hn]

theorem assocGet_set_self (l : List (Int × HandlerFn)) (k : Int) (v : HandlerFn) :
    assocGet (assocSet l k v) k = some v := by
  simp [assocGet, assocSet, List.find?_cons]

theorem assocGet_erase_self (l : List (Int × HandlerFn)) (k : Int) :
    assocGet (assocErase l k) k = none := by
  induction l with
  | nil => rfl
  | cons e rest ih =>
    by_cases he : e.1 == k
    · simpa [assocErase, List.filter_cons, he] using ih
    · simpa [assocErase, List.filter_cons, he, assocGet, List.find?_cons] using ih

/-- C8 (confirmed): reply-subscription consumption is at-most-once.  After
registering a subscription for message id `M`, the first processed reply to
`M` resolves to the subscribed callback (and its `pop` removes the entry),
so a second reply to `M` finds no subscription and falls through — given no
next-step handler is registered for its chat — to static-handler
resolution. -/
theorem C8_reply_at_most_once (st : BotState) (M : Int) (f : HandlerFn)
    (m1 m2 : Message)
    (h1 : m1.reply_to_message = some M) (h2 : m2.reply_to_message = some M)
    (hn2 : assocGet st.message_next_handlers m2.chat_id = none) :
    ((process_message (register_for_reply st M f) m1).1 = some f) ∧
    (assocGet ((process_message (register_for_reply st M f) m1).2).message_subscribers M
      = none) ∧
    ((process_message ((process_message (register_for_reply st M f) m1).2) m2).1 =
      _find_command_handler_function st m2) := by
  refine ⟨?_, ?_, ?_⟩
  · simp [process_message, register_for_reply, _find_message_subscriber_handler_function,
      h1, assocGet_set_self]
  · simp [process_message, register_for_reply, _find_message_subscriber_handler_function,
      h1, assocGet_set_self, assocGet_erase_self]
  · simp [process_message, register_for_reply, _find_message_subscriber_handler_function,
      _find_message_next_handler, _find_command_handler_function,
      h1, h2, hn2, assocGet_set_self, assocGet_erase_self]

/-- C8 (witness): the at-most-once statement at a concrete state — one
static `/start` handler, subscription `99` registered for message id `10`,
and two replies to `10`; the first reply resolves to `99`, the second to
the static handler `7`. -/
theorem C8_witness :
    ((replyMessage 2).reply_to_message = some 10) ∧
    ((replyMessage 3).reply_to_message = some 10) ∧
    (assocGet startBot.message_next_handlers (replyMessage 3).chat_id = none) ∧
    ((process_message (register_for_reply startBot 10 99) (replyMessage 2)).1 = some 99) ∧
    ((process_message
        ((process_message (register_for_reply startBot 10 99) (replyMessage 2)).2)
        (replyMessage 3)).1 = _find_command_handler_function startBot (replyMessage 3)) :=
  ⟨rfl, rfl, rfl,
   (C8_reply_at_most_once startBot 10 99 (replyMessage 2) (replyMessage 3) rfl rfl rfl).1,
   (C8_reply_at_most_once startBot 10 99 (replyMessage 2) (replyMessage 3) rfl rfl rfl).2.2⟩

/-- C2 (counterexample): the claim asserts that a handler declaring
commands is skipped — without consulting its own regexp or predicate —
whenever the message yields no command token; but for the text `"hello"`
(which yields no command token) a handler declaring commands `["start"]`
and regexp `"hello"` falls through to its own regexp test and is
resolved. -/
theorem C2_counterexample :
    extract_command "hello".data = none ∧
    _find_command_handler_function cmdRegexpBot (mkTextMessage "hello") = some 8 := by
  exact ⟨rfl, rfl⟩

/-- C2 (amended): when the message yields a (nonempty) command token that
matches none of the handler's declared commands, the handler is not
resolved and its regexp/predicate are not consulted; but when the message
yields no command token (or an empty one), evaluation falls through to the
same handler's regexp and predicate tests. -/
theorem C2_commands_gate_amended :
    (∀ (mh : MessageHandler) (m : Message) (cmds : List Str) (c : Char) (cs : Str),
      mh.commands = some cmds →
      m.content_type = some ContentKind.text →
      extract_command (m.text.getD []) = some (c :: cs) →
      (∀ p ∈ cmds, reMatchList (appendDollar p) (c :: cs) = false) →
      _test_message_handler mh m = false) ∧
    (∀ (mh : MessageHandler) (m : Message) (cmds : List Str),
      mh.commands = some cmds →
      m.content_type = some ContentKind.text →
      contentTypeOk mh m = true →
      (extract_command (m.text.getD []) = none ∨ extract_command (m.text.getD []) = some []) →
      _test_message_handler mh m = testRegexpAndLambda mh m) := by
  constructor
  · intro mh m cmds c cs hc hct hex hnone
    by_cases hok : contentTypeOk mh m = false
    · simp [_test_message_handler, hok]
    · simp only [_test_message_handler, hok, if_false, hc, hct, hex]
      exact List.any_eq_false.mpr (by simpa using hnone)
  · intro mh m cmds hc hct hok hex
    rcases hex with hex | hex <;>
      simp [_test_message_handler, hok, hc, hct, hex]

/-- C2 (witness): both amended parts at concrete inputs — the token
`"zzz"` matches no declared command of the `["start"]`+regexp handler, so
the handler is skipped; the commandless text `"hello"` falls through to
that same handler's regexp test. -/
theorem C2_witness :
    (_test_message_handler
      { function := 8, content_types := [ContentKind.text],
        commands := some ["start".data], regexp := some "hello".data, lam := none }
      (mkTextMessage "/zzz") = false) ∧
    (_test_message_handler
      { function := 8, content_types := [ContentKind.text],
        commands := some ["start".data], regexp := some "hello".data, lam := none }
      (mkTextMessage "hello") =
      testRegexpAndLambda
        { function := 8, content_types := [ContentKind.text],
          commands := some ["start".data], regexp := some "hello".data, lam := none }
        (mkTextMessage "hello")) :=
  ⟨C2_commands_gate_amended.1 _ (mkTextMessage "/zzz") ["start".data] 'z' "zz".data
      rfl rfl rfl (by decide),
   C2_commands_gate_amended.2 _ (mkTextMessage "hello") ["start".data]
      rfl rfl rfl (Or.inl rfl)⟩

/-- C9 (confirmed): declared command strings are interpreted as regular
expression patterns, not literals: `$` is appended unless already present,
the extracted token is matched with `re.match`, and the handler's result on
a command-bearing text message is exactly whether some declared pattern
accepts the token.  Hence the declared command `"st.rt"` resolves both
`/start` and `/stzrt` (any middle character), while `/strt` is not
accepted. -/
theorem C9_commands_are_patterns :
    (∀ (mh : MessageHandler) (m : Message) (cmds : List Str) (c : Char) (cs : Str),
      mh.commands = some cmds →
      m.content_type = some ContentKind.text →
      contentTypeOk mh m = true →
      extract_command (m.text.getD []) = some (c :: cs) →
      _test_message_handler mh m = cmds.any (fun p => reMatchList (appendDollar p) (c :: cs))) ∧
    appendDollar "st.rt".data = "st.rt$".data ∧
    appendDollar "start$".data = "start$".data ∧
    _find_command_handler_function dotPatternBot (mkTextMessage "/start") = some 9 ∧
    _find_command_handler_function dotPatternBot (mkTextMessage "/stzrt") = some 9 ∧
    _find_command_handler_function dotPatternBot (mkTextMessage "/strt") = none := by
  refine ⟨?_, by decide, by decide, rfl, rfl, rfl⟩
  intro mh m cmds c cs hc hct hok hex
  simp [_test_message_handler, hok, hc, hct, hex]

/-- C9 (witness): the pattern-match equation at the `["st.rt"]` handler and
the message `/start`. -/
theorem C9_witness :
    _test_message_handler
      { function := 9, content_types := [ContentKind.text],
        commands := some ["st.rt".data], regexp := none, lam := none }
      (mkTextMessage "/start") =
      (["st.rt".data].any fun p => reMatchList (appendDollar p) ('s' :: "tart".data)) :=
  C9_commands_are_patterns.1 _ (mkTextMessage "/start") ["st.rt".data] 's' "tart".data
    rfl rfl rfl rfl

theorem filter_sortInsert (c : Int) (m : Message) (l : List Message) :
    (sortInsert m l).filter (fun x => x.chat_id == c) =
      ((m :: l).filter (fun x => x.chat_id == c)) := by
  induction l with
  | nil => rfl
  | cons x xs ih =>
    by_cases hle : m.chat_id ≤ x.chat_id
    · simp [sortInsert, hle]
    · have hstep : sortInsert m (x :: xs) = x :: sortInsert m xs := by
        simp [sortInsert, hle]
      rw [hstep, List.filter_cons, ih]
      by_cases hm : m.chat_id = c
      · have hx : ¬ (x.chat_id = c) := by omega
        simp [List.filter_cons, hm, hx]
      · by_cases hx : x.chat_id = c <;> simp [List.filter_cons, hm, hx]

theorem filter_pySorted (c : Int) (l : List Message) :
    (pySorted l).filter (fun x => x.chat_id == c) = l.filter (fun x => x.chat_id == c) := by
  induction l with
  | nil => rfl
  | cons m ms ih =>
    calc (pySorted (m :: ms)).filter (fun x => x.chat_id == c)
        = ((m :: pySorted ms).filter (fun x => x.chat_id == c)) :=
          filter_sortInsert c m (pySorted ms)
      _ = (m :: ms).filter (fun x => x.chat_id == c) := by
          simp only [List.filter_cons, ih]

theorem flatten_groupby_filter (q0 : Int → Bool) (l : List Message) :
    (((pyGroupby l).filter (fun g => q0 g.1)).map (fun g => g.2)).flatten =
      l.filter (fun m => q0 m.chat_id) := by
  induction l with
  | nil => rfl
  | cons m ms ih =>
    cases hg : pyGroupby ms with
    | nil =>
      have hms : ms.filter (fun m => q0 m.chat_id) = [] := by
        rw [← ih, hg]; rfl
      rw [show pyGroupby (m :: ms) = [(m.chat_id, [m])] from by simp [pyGroupby, hg]]
      cases hq : q0 m.chat_id <;> simp [List.filter_cons, hq, hms]
    | cons kg rest =>
      rcases kg with ⟨k, g⟩
      rw [hg] at ih
      by_cases hmk : m.chat_id = k
      · rw [show pyGroupby (m :: ms) = (k, m :: g) :: rest from by simp [pyGroupby, hg, hmk]]
        cases hq : q0 k with
        | true =>
          have hqm : q0 m.chat_id = true := by rw [hmk]; exact hq
          simp only [List.filter_cons, hq, if_true, List.map_cons, List.flatten_cons] at ih ⊢
          rw [hqm]
          simp only [if_true, List.map_cons, List.flatten_cons, ← ih]
          simp
        | false =>
          have hqm : q0 m.chat_id = false := by rw [hmk]; exact hq
          simp only [List.filter_cons, hq, hqm] at ih ⊢
          simpa using ih
      · rw [show pyGroupby (m :: ms) = (m.chat_id, [m]) :: (k, g) :: rest from by
          simp [pyGroupby, hg, hmk]]
        cases hq : q0 m.chat_id <;> cases hqk : q0 k <;>
          simp_all [List.filter_cons]

theorem pysplitAux_words (s : Str) : ∀ (acc : Str),
    (∀ c ∈ acc, isPySpace c = false) →
    ∀ w ∈ pysplitAux s acc, w ≠ [] ∧ ∀ c ∈ w, isPySpace c = false := by
  induction s with
  | nil =>
    intro acc hacc w hw
    by_cases ha : acc = []
    · simp [pysplitAux, ha] at hw
    · simp only [pysplitAux, if_neg ha, List.mem_singleton] at hw
      subst hw
      refine ⟨by simpa using ha, ?_⟩
      intro c hc
      exact hacc c (List.mem_reverse.mp hc)
  | cons c cs ih =>
    intro acc hacc w hw
    by_cases hws : isPySpace c = true
    · by_cases ha : acc = []
      · simp only [pysplitAux, hws, if_true, ha, if_pos] at hw
        exact ih [] (by simp) w hw
      · simp only [pysplitAux, hws, if_true, if_neg ha, List.mem_cons] at hw
        rcases hw with h | h
        · subst h
          refine ⟨by simpa using ha, ?_⟩
          intro d hd
          exact hacc d (List.mem_reverse.mp hd)
        · exact ih [] (by simp) w h
    · simp only [pysplitAux, hws, if_false, Bool.false_eq_true] at hw
      refine ih (c :: acc) ?_ w hw
      intro d hd
      rcases List.mem_cons.mp hd with h | h
      · subst h; simpa using hws
      · exact hacc d h

theorem pysplitAux_append (w : Str) : ∀ (s acc : Str),
    (∀ c ∈ w, isPySpace c = false) →
    pysplitAux (w ++ s) acc = pysplitAux s (w.reverse ++ acc) := by
  induction w with
  | nil => intro s acc _; simp
  | cons c w' ih =>
    intro s acc hw
    have hc : isPySpace c = false := hw c (by simp)
    simp only [List.cons_append, pysplitAux, hc, Bool.false_eq_true, if_false]
    exact (ih s (c :: acc) (fun d hd => hw d (by simp [hd]))).trans (by simp)

theorem pysplit_joinWords : ∀ (W : List Str),
    (∀ w ∈ W, w ≠ [] ∧ ∀ c ∈ w, isPySpace c = false) →
    pysplit (joinWords W) = W := by
  intro W
  induction W with
  | nil => intro _; rfl
  | cons w W' ih =>
    intro hW
    obtain ⟨hne, hfree⟩ := hW w (by simp)
    cases W' with
    | nil =>
      show pysplitAux (joinWords [w]) [] = [w]
      rw [show joinWords [w] = w ++ [] from by simp [joinWords]]
      rw [pysplitAux_append w [] [] hfree]
      simp [pysplitAux, hne]
    | cons w2 W'' =>
      have hrec := ih (fun x hx => hW x (by simp [hx]))
      show pysplitAux (joinWords (w :: w2 :: W'')) [] = w :: w2 :: W''
      rw [show joinWords (w :: w2 :: W'') = w ++ ' ' :: joinWords (w2 :: W'') from rfl]
      rw [pysplitAux_append w (' ' :: joinWords (w2 :: W'')) [] hfree]
      have ha : ¬ (w.reverse ++ [] = []) := by simpa using hne
      simp only [pysplitAux, show isPySpace ' ' = true from rfl, if_true, if_neg ha]
      unfold pysplit at hrec
      rw [hrec]
      simp

theorem noConsecWS_tail {a : Char} {r : Str} (h : noConsecWS (a :: r) = true) :
    noConsecWS r = true := by
  cases r with
  | nil => rfl
  | cons b t =>
    simp only [noConsecWS, Bool.and_eq_true] at h
    exact h.2

theorem noConsecWS_append (w : Str) (s : Str)
    (hfree : ∀ c ∈ w, isPySpace c = false) (hs : noConsecWS s = true) :
    noConsecWS (w ++ s) = true := by
  induction w with
  | nil => simpa using hs
  | cons c w' ih =>
    have hih := ih (fun d hd => hfree d (by simp [hd]))
    have hc : isPySpace c = false := hfree c (by simp)
    rw [List.cons_append]
    cases hws : w' ++ s with
    | nil => rfl
    | cons d t =>
      rw [show noConsecWS (c :: d :: t) =
          (!(isPySpace c && isPySpace d) && noConsecWS (d :: t)) from rfl]
      rw [← hws, hih, hc]
      simp

theorem headNotWS_joinWords : ∀ (W : List Str),
    (∀ w ∈ W, w ≠ [] ∧ ∀ c ∈ w, isPySpace c = false) →
    headNotWS (joinWords W) = true := by
  intro W
  induction W with
  | nil => intro _; rfl
  | cons w W' _ =>
    intro hW
    obtain ⟨hne, hfree⟩ := hW w (by simp)
    cases W' with
    | nil =>
      cases w with
      | nil => exact absurd rfl hne
      | cons c w' => simp [joinWords, headNotWS, hfree c (by simp)]
    | cons w2 W'' =>
      cases w with
      | nil => exact absurd rfl hne
      | cons c w' =>
        rw [show joinWords ((c :: w') :: w2 :: W'') =
            c :: (w' ++ ' ' :: joinWords (w2 :: W'')) from rfl]
        simp [headNotWS, hfree c (by simp)]

theorem noConsecWS_joinWords : ∀ (W : List Str),
    (∀ w ∈ W, w ≠ [] ∧ ∀ c ∈ w, isPySpace c = false) →
    noConsecWS (joinWords W) = true := by
  intro W
  induction W with
  | nil => intro _; rfl
  | cons w W' ih =>
    intro hW
    obtain ⟨hne, hfree⟩ := hW w (by simp)
    cases W' with
    | nil =>
      have h := noConsecWS_append w [] hfree rfl
      simpa using h
    | cons w2 W'' =>
      have hih := ih (fun x hx => hW x (by simp [hx]))
      have hhead := headNotWS_joinWords (w2 :: W'') (fun x hx => hW x (by simp [hx]))
      refine noConsecWS_append w (' ' :: joinWords (w2 :: W'')) hfree ?_
      cases hj : joinWords (w2 :: W'') with
      | nil => rfl
      | cons d t =>
        rw [hj] at hih hhead
        rw [show noConsecWS (' ' :: d :: t) =
            (!(isPySpace ' ' && isPySpace d) && noConsecWS (d :: t)) from rfl]
        simp only [headNotWS] at hhead
        rw [hih]
        revert hhead
        cases isPySpace d <;> simp

theorem joinWords_ne_nil (w : Str) (W : List Str) (hne : w ≠ []) :
    joinWords (w :: W) ≠ [] := by
  cases W with
  | nil => simpa [joinWords] using hne
  | cons w2 W' => simp [joinWords]

theorem lastNotWS_free : ∀ (w : Str), (∀ c ∈ w, isPySpace c = false) →
    lastNotWS w = true := by
  intro w
  induction w with
  | nil => intro _; rfl
  | cons c w' ih =>
    intro hfree
    cases w' with
    | nil => simp [lastNotWS, hfree c (by simp)]
    | cons d t =>
      rw [show lastNotWS (c :: d :: t) = lastNotWS (d :: t) from rfl]
      exact ih (fun x hx => hfree x (by simp [hx]))

theorem lastNotWS_append : ∀ (w s : Str), s ≠ [] →
    lastNotWS (w ++ s) = lastNotWS s := by
  intro w
  induction w with
  | nil => intro s _; rfl
  | cons c w' ih =>
    intro s hs
    rw [List.cons_append]
    cases hws : w' ++ s with
    | nil => exact absurd (List.append_eq_nil.mp hws).2 hs
    | cons d t =>
      rw [show lastNotWS (c :: d :: t) = lastNotWS (d :: t) from rfl, ← hws]
      exact ih s hs

theorem lastNotWS_joinWords : ∀ (W : List Str),
    (∀ w ∈ W, w ≠ [] ∧ ∀ c ∈ w, isPySpace c = false) →
    lastNotWS (joinWords W) = true := by
  intro W
  induction W with
  | nil => intro _; rfl
  | cons w W' ih =>
    intro hW
    obtain ⟨hne, hfree⟩ := hW w (by simp)
    cases W' with
    | nil => exact lastNotWS_free w hfree
    | cons w2 W'' =>
      have hih := ih (fun x hx => hW x (by simp [hx]))
      have hne2 : (' ' :: joinWords (w2 :: W'')) ≠ [] := by simp
      have hjne : joinWords (w2 :: W'') ≠ [] :=
        joinWords_ne_nil w2 W'' (hW w2 (by simp)).1
      have hstep : lastNotWS (joinWords (w :: w2 :: W'')) =
          lastNotWS (' ' :: joinWords (w2 :: W'')) :=
        lastNotWS_append w (' ' :: joinWords (w2 :: W'')) hne2
      rw [hstep]
      cases hj : joinWords (w2 :: W'') with
      | nil => exact absurd hj hjne
      | cons d t =>
        rw [hj] at hih
        rw [show lastNotWS (' ' :: d :: t) = lastNotWS (d :: t) from rfl]
        exact hih

theorem joinWords_ws_space : ∀ (W : List Str),
    (∀ w ∈ W, ∀ c ∈ w, isPySpace c = false) →
    ∀ c ∈ joinWords W, isPySpace c = true → c = ' ' := by
  intro W
  induction W with
  | nil => intro _ c hc; cases hc
  | cons w W' ih =>
    intro hW c hc hws
    cases W' with
    | nil =>
      have : c ∈ w := by simpa [joinWords] using hc
      exact absurd hws (by simp [hW w (by simp) c this])
    | cons w2 W'' =>
      rw [show joinWords (w :: w2 :: W'') = w ++ ' ' :: joinWords (w2 :: W'') from rfl] at hc
      rcases List.mem_append.mp hc with h | h
      · exact absurd hws (by simp [hW w (by simp) c h])
      · rcases List.mem_cons.mp h with h | h
        · exact h
        · exact ih (fun x hx => hW x (by simp [hx])) c h hws

theorem reSearch_two_space : ∀ (s : Str), noConsecWS s = true →
    reSearchList [' ', ' '] s = false := by
  intro s
  induction s with
  | nil => intro _; rfl
  | cons c cs ih =>
    intro h
    have htail := ih (noConsecWS_tail h)
    rw [show reSearchList [' ', ' '] (c :: cs) =
        (reMatchList [' ', ' '] (c :: cs) || reSearchList [' ', ' '] cs) from rfl]
    rw [htail, Bool.or_false]
    cases cs with
    | nil => simp [reMatchList]
    | cons d t =>
      simp only [noConsecWS, Bool.and_eq_true] at h
      obtain ⟨hcd, -⟩ := h
      by_cases hc : (' ' : Char) = c
      · by_cases hd : (' ' : Char) = d
        · exfalso
          rw [← hc, ← hd] at hcd
          exact absurd hcd (by decide)
        · simp [reMatchList, hd]
      · simp [reMatchList, hc]

/-- C10 (confirmed): the text stored on the typed message at
deserialization is `" ".join(raw.split())`, i.e. the raw text with every
whitespace run collapsed to a single space character and leading/trailing
whitespace removed: the stored text preserves the raw text's words, has no
two adjacent whitespace characters, neither starts nor ends with
whitespace, and its only whitespace character is the single space; command
extraction and handler matching read this stored text, so a regexp
requiring two consecutive whitespace characters can never find a match in
it. -/
theorem C10_text_normalization :
    (∀ (obj : RawMessage) (t : Str), obj.text = some t →
      (Message.de_json obj).text = some (pyNormalize t)) ∧
    (∀ t : Str, pysplit (pyNormalize t) = pysplit t) ∧
    (∀ t : Str, noConsecWS (pyNormalize t) = true ∧ headNotWS (pyNormalize t) = true ∧
      lastNotWS (pyNormalize t) = true ∧
      (∀ c ∈ pyNormalize t, isPySpace c = true → c = ' ')) ∧
    (∀ t : Str, reSearchList [' ', ' '] (pyNormalize t) = false) := by
  have hwords : ∀ t : Str, ∀ w ∈ pysplit t, w ≠ [] ∧ ∀ c ∈ w, isPySpace c = false :=
    fun t w hw => pysplitAux_words t [] (by simp) w hw
  refine ⟨?_, ?_, ?_, ?_⟩
  · intro obj t h
    simp [Message.de_json, h]
  · intro t
    exact pysplit_joinWords (pysplit t) (hwords t)
  · intro t
    exact ⟨noConsecWS_joinWords (pysplit t) (hwords t),
      headNotWS_joinWords (pysplit t) (hwords t),
      lastNotWS_joinWords (pysplit t) (hwords t),
      joinWords_ws_space (pysplit t) (fun w hw => (hwords t w hw).2)⟩
  · intro t
    exact reSearch_two_space (pyNormalize t) (noConsecWS_joinWords (pysplit t) (hwords t))

/-- C10 (witness): the deserialization equation at the raw text
`"a  b "`. -/
theorem C10_witness :
    (({ message_id := 1, chat_id := 1, text := some "a  b ".data } : RawMessage).text
      = some "a  b ".data) ∧
    (Message.de_json { message_id := 1, chat_id := 1, text := some "a  b ".data }).text
      = some (pyNormalize "a  b ".data) :=
  ⟨rfl, C10_text_normalization.1 _ "a  b ".data rfl⟩

/-- C5 (confirmed): `process_messages` partitions a batch stably by chat
identity — for every chat id `c`, the messages routed to `c` are exactly
the subsequence of the batch with chat id `c` in arrival order — and on the
spec's example batch (chat ids `[1,2,2,3,1,2,3,1,1,3]`) it produces
chat 1 `[msg0, msg4, msg7, msg8]`, chat 2 `[msg1, msg2, msg5]`, chat 3
`[msg3, msg6, msg9]`. -/
theorem C5_stable_partition :
    (∀ (messages : List Message) (c : Int),
      chatPartition c messages = messages.filter (fun m => m.chat_id == c)) ∧
    process_messages_groups exampleBatch =
      [(1, [exMsg 0 1, exMsg 4 1, exMsg 7 1, exMsg 8 1]),
       (2, [exMsg 1 2, exMsg 2 2, exMsg 5 2]),
       (3, [exMsg 3 3, exMsg 6 3, exMsg 9 3])] := by
  constructor
  · intro messages c
    calc chatPartition c messages
        = (pySorted messages).filter (fun m => m.chat_id == c) :=
          flatten_groupby_filter (fun k => k == c) (pySorted messages)
      _ = messages.filter (fun m => m.chat_id == c) := filter_pySorted c messages
  · rfl
